import Mathlib

/-!
Verification development for `scripts/generate_premium_dashboard_excel.py`:
a script that converts a JSON list of sales proposals into a multi-sheet
spreadsheet (raw data table, per-client rollup, executive dashboard).

The embedding below translates the script's pure computations into Lean:
numeric values are modelled as exact rationals (the script uses Python
floats; no claim exercises binary rounding artefacts), calendar dates as
`PyDate` triples ordered lexicographically, fallible operations as
`Option`.  Python's `list.sort` / `sorted` (a stable sort) is modelled by
`List.mergeSort`, which is also stable.
-/

/-- A calendar date `(year, month, day)`, modelling Python's `datetime.date`.
Python compares dates lexicographically on `(year, month, day)`. -/
structure PyDate where
  year : Nat
  month : Nat
  day : Nat
deriving DecidableEq, Repr

/-- Date comparison, lexicographic on `(year, month, day)`, as for
Python `datetime.date`. -/
def PyDate.le (a b : PyDate) : Prop :=
  a.year < b.year ∨ (a.year = b.year ∧
    (a.month < b.month ∨ (a.month = b.month ∧ a.day ≤ b.day)))

instance : DecidablePred (fun p : PyDate × PyDate => PyDate.le p.1 p.2) :=
  fun _ => by unfold PyDate.le; infer_instance

instance (a b : PyDate) : Decidable (PyDate.le a b) := by
  unfold PyDate.le; infer_instance

/-- Boolean form of `PyDate.le`, used as a sort comparator. -/
def PyDate.leB (a b : PyDate) : Bool := decide (PyDate.le a b)

/-- Numeric value of a list of decimal digit characters. -/
def digitsVal (cs : List Char) : Nat :=
  cs.foldl (fun a c => a * 10 + (c.toNat - 48)) 0

/-- Python `str.replace` for a single-character pattern (the only patterns
the script uses): every occurrence of `c` becomes `rep`. -/
def replaceChar (c : Char) (rep : List Char) (cs : List Char) : List Char :=
  cs.flatMap (fun x => if x = c then rep else [x])

/-- Python `str.strip()` with no argument: drop leading and trailing
whitespace (the script's inputs use ASCII whitespace). -/
def pyStrip (cs : List Char) : List Char :=
  ((cs.dropWhile Char.isWhitespace).reverse.dropWhile Char.isWhitespace).reverse

/-- Split an optional leading sign, returning `(sign, rest)`. -/
def readSign (cs : List Char) : Int × List Char :=
  match cs with
  | '+' :: r => (1, r)
  | '-' :: r => (-1, r)
  | r => (1, r)

/-- The syntactic parts of an accepted decimal float literal: sign, integer
digits, fraction digits, exponent sign and exponent digits. -/
structure FloatLit where
  sign : Int
  ip : List Char
  fp : List Char
  esign : Int
  ed : List Char
deriving DecidableEq, Repr

/-- Syntactic phase of CPython `float(str)` on plain decimal literals:
optional whitespace and sign, digits with at most one `.`, optional
`e`/`E` exponent; at least one mantissa digit; `none` on anything else
(the `ValueError` branch).  Restricted to the decimal forms —
`inf`/`nan`/underscore/hex literals are outside the modelled domain. -/
def pyFloatParse (s : List Char) : Option FloatLit :=
  let cs := pyStrip s
  let (sgn, cs1) := readSign cs
  let ip := cs1.takeWhile Char.isDigit
  let cs2 := cs1.drop ip.length
  let (fp, cs3) :=
    match cs2 with
    | '.' :: r => (r.takeWhile Char.isDigit, r.drop (r.takeWhile Char.isDigit).length)
    | r => ([], r)
  if ip.isEmpty && fp.isEmpty then none
  else
    match cs3 with
    | [] => some ⟨sgn, ip, fp, 1, []⟩
    | c :: r =>
      if c = 'e' ∨ c = 'E' then
        let (esgn, r1) := readSign r
        let ed := r1.takeWhile Char.isDigit
        let r2 := r1.drop ed.length
        if ed.isEmpty ∨ ¬ r2.isEmpty then none
        else some ⟨sgn, ip, fp, esgn, ed⟩
      else none

/-- Exact rational value of an accepted float literal. -/
def FloatLit.val (f : FloatLit) : Rat :=
  let mant : Rat := (digitsVal f.ip : Rat) + (digitsVal f.fp : Rat) / (10 : Rat) ^ f.fp.length
  let scale : Rat := (10 : Rat) ^ digitsVal f.ed
  f.sign * (if f.esign = 1 then mant * scale else mant / scale)

/-- Models CPython `float(str)`: the parsed literal's exact rational value
(the script's binary floats are modelled as exact rationals). -/
def pyFloat (s : List Char) : Option Rat :=
  (pyFloatParse s).map FloatLit.val

/-- The script's `parse_value`: `None` and empty/whitespace-only strings
map to `0.0`; otherwise every `.` is stripped, `,` becomes `.`, and the
cleaned string is parsed as a float.  `none` models the uncaught
`ValueError` that `float` raises on a non-numeric cleaned string. -/
def parse_value (raw : Option String) : Option Rat :=
  match raw with
  | none => some 0
  | some s =>
    let text := pyStrip s.toList
    if text = [] then some 0
    else pyFloat (replaceChar ',' ['.'] (replaceChar '.' [] text))

/-- Value of two decimal digit characters, `none` if either is not a digit. -/
def two (a b : Char) : Option Nat :=
  if a.isDigit && b.isDigit then some ((a.toNat - 48) * 10 + (b.toNat - 48))
  else none

/-- Gregorian leap-year rule, as in Python's `calendar`/`datetime`. -/
def isLeap (y : Nat) : Bool := y % 4 = 0 && (y % 100 ≠ 0 || y % 400 = 0)

/-- Days in a month, as validated by Python's `datetime.date`. -/
def daysInMonth (y m : Nat) : Nat :=
  if m = 2 then (if isLeap y then 29 else 28)
  else if m = 4 ∨ m = 6 ∨ m = 9 ∨ m = 11 then 30
  else 31

/-- Reads `HH:MM` with range checks, returning the rest of the input. -/
def readHM (cs : List Char) : Option (Nat × Nat × List Char) :=
  match cs with
  | h1 :: h2 :: ':' :: m1 :: m2 :: rest => do
    let h ← two h1 h2
    let m ← two m1 m2
    if h ≤ 23 && m ≤ 59 then some (h, m, rest) else none
  | _ => none

/-- Consumes an optional `:SS[.fff / .ffffff]` component (the CPython
`_parse_hh_mm_ss_ff` tail): fraction length must be exactly 3 or 6. -/
def afterSeconds (cs : List Char) : Option (List Char) :=
  match cs with
  | ':' :: s1 :: s2 :: rest => do
    let s ← two s1 s2
    if s ≤ 59 then
      match rest with
      | '.' :: r2 =>
        let ds := r2.takeWhile Char.isDigit
        if ds.length = 3 ∨ ds.length = 6 then some (r2.drop ds.length) else none
      | r => some r
    else none
  | ':' :: _ => none
  | rest => some rest

/-- Checks a `±HH:MM[:SS[.ffffff]]` UTC-offset suffix (sign already consumed). -/
def offsetOk (cs : List Char) : Bool :=
  match readHM cs with
  | some (_, _, rest) => afterSeconds rest = some []
  | none => false

/-- Checks the time-of-day part after the date separator:
`HH:MM[:SS[.fff / .ffffff]][±HH:MM[:SS[.ffffff]]]`. -/
def timeOk (cs : List Char) : Bool :=
  match readHM cs with
  | some (_, _, rest) =>
    match afterSeconds rest with
    | some [] => true
    | some (c :: r) => (c = '+' || c = '-') && offsetOk r
    | none => false
  | none => false

/-- Models CPython `datetime.fromisoformat(...).date()` on the 3.7–3.10
grammar: `YYYY-MM-DD` (calendar-validated, year 1–9999) optionally followed
by a single separator character and a valid time-of-day with optional UTC
offset; `none` models the `ValueError` branch. -/
def fromIso (s : List Char) : Option PyDate :=
  match s with
  | y1 :: y2 :: y3 :: y4 :: '-' :: m1 :: m2 :: '-' :: d1 :: d2 :: rest =>
    if y1.isDigit && y2.isDigit && y3.isDigit && y4.isDigit then
      let y := digitsVal [y1, y2, y3, y4]
      match two m1 m2, two d1 d2 with
      | some m, some d =>
        if 1 ≤ y ∧ 1 ≤ m ∧ m ≤ 12 ∧ 1 ≤ d ∧ d ≤ daysInMonth y m then
          match rest with
          | [] => some ⟨y, m, d⟩
          | _sep :: timeCs => if timeOk timeCs then some ⟨y, m, d⟩ else none
        else none
      | _, _ => none
    else none
  | _ => none

/-- The raw `createdAt` field handed to `parse_date`: a native date, a
string, or Python `None` (a missing key). -/
inductive DateInput where
  | date (d : PyDate)
  | str (s : String)
  | pynone
deriving DecidableEq, Repr

/-- Python `str(raw)` on the non-date inputs `parse_date` receives. -/
def DateInput.pyStr : DateInput → String
  | .date _ => ""
  | .str s => s
  | .pynone => "None"

/-- The script's `parse_date`: a native `date` passes through; otherwise
`str(raw)` has every `Z` replaced by `+00:00` and is given to
`fromisoformat`; on failure the current date (`today`) is returned. -/
def parse_date (raw : DateInput) (today : PyDate) : PyDate :=
  match raw with
  | .date d => d
  | _ => (fromIso (replaceChar 'Z' "+00:00".toList (DateInput.pyStr raw).toList)).getD today

/-- Python `round(x, 2)`, i.e. round-half-to-even on hundredths.  The
script rounds binary floats; values are modelled as exact rationals, so
the decimal tie rule stands in for the float one (no claim exercises
ties). -/
def roundHalfEven (x : Rat) : Int :=
  let f := x.floor
  let r := x - f
  if r < 1 / 2 then f
  else if r > 1 / 2 then f + 1
  else if f % 2 = 0 then f else f + 1

/-- Python `round(val, 2)` from the script's row loop. -/
def round2 (x : Rat) : Rat := (roundHalfEven (x * 100) : Rat) / 100

/-- One input proposal record, the shape consumed by `main`'s row loop.
`none` models a missing key.  (`id` is integer-like per the input schema;
string ids are outside the modelled domain.) -/
structure Proposal where
  id : Option Int
  status : Option String
  createdAt : DateInput
  value : Option String
  clientName : Option String
  title : Option String
deriving DecidableEq, Repr

/-- One derived data-sheet row, columns A–J of sheet `Dados` in order:
date, client, title, status, channel, value, paid, seller, category, uf.
The paid column holds the strings the script writes (`"Sim"`/`"Não"`). -/
structure Row where
  date : PyDate
  clientName : String
  title : String
  status : String
  channel : String
  value : Rat
  paid : String
  seller : String
  category : String
  uf : String
deriving DecidableEq, Repr

/-- The fixed channel lookup table. -/
def channels : List String := ["Pix", "Cartão", "Boleto"]

/-- The fixed seller roster. -/
def sellers : List String := ["Razi", "Ana", "João", "Bea"]

/-- The fixed category table. -/
def cats : List String := ["Serviço", "Produto", "Mensalidade", "Setup"]

/-- The fixed region (UF) table. -/
def ufs : List String := ["SP", "RJ", "MG", "PR"]

/-- Python `%` on integers (result has the sign of the modulus); Lean's
`Int.emod` agrees for the positive table sizes used here. -/
def pyMod (a : Int) (n : Nat) : Nat := (a % (n : Int)).toNat

/-- The body of `main`'s row loop for one proposal: field defaults, the
value/date parsers, and the modular index lookups.  `none` models the
uncaught `ValueError` that `float` raises inside `parse_value`. -/
def deriveRow (p : Proposal) (today : PyDate) : Option Row :=
  let pid := p.id.getD 0
  let status := p.status.getD "pendente"
  (parse_value p.value).map fun v =>
    { date := parse_date p.createdAt today
      clientName := p.clientName.getD ""
      title := p.title.getD ("Contrato #" ++ toString pid)
      status := status
      channel := channels.getD (pyMod pid channels.length) ""
      value := round2 v
      paid := if status = "vendida" then "Sim" else "Não"
      seller := sellers.getD (pyMod (pid + 1) sellers.length) ""
      category := cats.getD (pyMod (pid + 2) cats.length) ""
      uf := ufs.getD (pyMod (pid + 3) ufs.length) "" }

/-- Models `main`'s row loop over all proposals; `none` when any value string
fails to parse (the loop does not catch the `ValueError`, so the whole
generation aborts). -/
def deriveRows : List Proposal → PyDate → Option (List Row)
  | [], _ => some []
  | p :: ps, today => do
    let r ← deriveRow p today
    let rs ← deriveRows ps today
    some (r :: rs)

/-- The comparator of `rows.sort(key=lambda x: x[0])`: by date only. -/
def rowLeB (a b : Row) : Bool := PyDate.leB a.date b.date

/-- Python `rows.sort(key=lambda x: x[0])`: a stable sort by date,
modelled by `List.mergeSort` (also stable). -/
def sortRows (rs : List Row) : List Row := rs.mergeSort rowLeB

/-- String comparator for Python `sorted` on strings (lexicographic by
code point, as Lean's `String` order). -/
def strLeB (a b : String) : Bool := decide (a ≤ b)

/-- The `Clientes` sheet roster, `sorted(set(...))` over column 1 of the
rows: the distinct client-name values, sorted lexicographically. -/
def clientNames (rs : List Row) : List String :=
  ((rs.map Row.clientName).dedup).mergeSort strLeB

/-- Sheet `Dados` column D (status) including its header cell, as the
whole-column references `Dados!$D:$D` see it. -/
def colD (rs : List Row) : List String := "Status" :: rs.map Row.status

/-- Sheet `Dados` column F (value) including its non-numeric header cell. -/
def colF (rs : List Row) : List (Option Rat) := none :: rs.map (some ∘ Row.value)

/-- Spreadsheet `COUNTIF(col, crit)` with an equality criterion. -/
def countif (col : List String) (crit : String) : Nat :=
  (col.filter (fun c => c = crit)).length

/-- Spreadsheet `SUMIFS(vals, col, crit)`: sum of the numeric cells of
`vals` whose matching `col` cell equals `crit` (text cells add 0). -/
def sumifs (vals : List (Option Rat)) (col : List String) (crit : String) : Rat :=
  (((vals.zip col).filter (fun p => p.2 = crit)).map (fun p => p.1.getD 0)).sum

/-- Spreadsheet `IFERROR(a/b, 0)`: division yields `#DIV/0!` only when
`b = 0`, in which case 0 is substituted. -/
def iferrorDiv (a b : Rat) : Rat := if b = 0 then 0 else a / b

/-- Dashboard cell S6, `=SUMIFS(Dados!$F:$F,Dados!$D:$D,"vendida")`. -/
def kpiS6 (rs : List Row) : Rat := sumifs (colF rs) (colD rs) "vendida"

/-- Dashboard cell S7, `=COUNTIF(Dados!$D:$D,"vendida")`. -/
def kpiS7 (rs : List Row) : Nat := countif (colD rs) "vendida"

/-- Dashboard cell S8, `=COUNTIF(Dados!$D:$D,"pendente")`. -/
def kpiS8 (rs : List Row) : Nat := countif (colD rs) "pendente"

/-- Dashboard cell S9, `=COUNTIF(Dados!$D:$D,"cancelada")`. -/
def kpiS9 (rs : List Row) : Nat := countif (colD rs) "cancelada"

/-- Dashboard cell S10, `=IFERROR(S6/S7,0)` (average ticket). -/
def kpiS10 (rs : List Row) : Rat := iferrorDiv (kpiS6 rs) (kpiS7 rs)

/-- Dashboard cell S11, `=IFERROR(S7/(S7+S8+S9),0)` (conversion rate). -/
def kpiS11 (rs : List Row) : Rat :=
  iferrorDiv (kpiS7 rs) ((kpiS7 rs : Rat) + (kpiS8 rs) + (kpiS9 rs))

/-- Summed revenue of a client's sold rows:
`sum(r[5] for r in rows if r[1] == n and r[3] == "vendida")`. -/
def soldRevenueOf (rs : List Row) (n : String) : Rat :=
  ((rs.filter (fun r => r.clientName = n ∧ r.status = "vendida")).map Row.value).sum

/-- The comparator of `sorted(names, key=…, reverse=True)`: Python's
`reverse=True` compares keys in reverse while keeping the sort stable,
i.e. `a` may precede `b` iff `key b ≤ key a`. -/
def revLeB (rs : List Row) (a b : String) : Bool :=
  decide (soldRevenueOf rs b ≤ soldRevenueOf rs a)

/-- The script's `sorted_clients`: the roster ordered by descending summed sold
revenue (stable, so ties keep the roster's lexicographic order). -/
def sorted_clients (rs : List Row) : List String :=
  (clientNames rs).mergeSort (revLeB rs)

/-- The populated names of the dashboard top-10 table (cells I44..I53):
slot `i` is filled iff `i < len(sorted_clients)`. -/
def top10Slot (rs : List Row) (i : Nat) : Option String :=
  (sorted_clients rs)[i]?

/-- All populated top-10 names in display order. -/
def top10Names (rs : List Row) : List String := (sorted_clients rs).take 10

/-- A one-column cell range `$X$firstRow:$X$lastRow`. -/
structure CellRange where
  firstRow : Nat
  lastRow : Nat
deriving DecidableEq, Repr

/-- A range is inverted when its end row lies above its start row (the
emitted text then denotes `$X$a:$X$b` with `b < a`). -/
def CellRange.inverted (r : CellRange) : Bool := decide (r.lastRow < r.firstRow)

/-- Models `ws_data.max_row` after the rows are appended: one header row plus
one row per derived row. -/
def dataMaxRow (rs : List Row) : Nat := rs.length + 1

/-- The row span shared by `a_rng`/`d_rng`/`f_rng`/`canal_rng`, the
bounded ranges the twelve trend-table `SUMPRODUCT` formulas reference:
`Dados!$X$2:$X${max_row}`. -/
def trendRange (rs : List Row) : CellRange := ⟨2, dataMaxRow rs⟩

/-- The literal text of `a_rng`, `f'Dados!$A$2:$A\x7bmax_row\x7d'`. -/
def aRng (rs : List Row) : String := "Dados!$A$2:$A$" ++ toString (dataMaxRow rs)

/-- The range of the `Clientes` TOTAL row's `=SUM(B\x7bstart\x7d:B\x7btotal_r-1\x7d)`:
client data starts at row 5 and the total row is `5 + len(names)`. -/
def clientsTotalRange (ns : List String) : CellRange := ⟨5, 5 + ns.length - 1⟩

/-- A JSON document, the shape `json.loads` returns. -/
inductive Json where
  | null
  | bool (b : Bool)
  | num (n : Int)
  | str (s : String)
  | arr (xs : List Json)
  | obj (kvs : List (String × Json))
deriving Repr

/-- The characters JSON treats as whitespace between tokens. -/
def jsonWs (cs : List Char) : List Char :=
  cs.dropWhile (fun c => c = ' ' ∨ c = '\t' ∨ c = '\n' ∨ c = '\r')

/-- The `"` character. -/
def dquote : Char := Char.ofNat 34

/-- The `\x7b` character. -/
def lbrace : Char := Char.ofNat 123

/-- The `\x7d` character. -/
def rbrace : Char := Char.ofNat 125

/-- The backslash character. -/
def bslash : Char := Char.ofNat 92

/-- Reads a JSON string body after the opening quote; escape sequences
are outside the modelled domain. -/
def pString (cs : List Char) : Option (String × List Char) :=
  let body := cs.takeWhile (fun c => ¬ (c = dquote ∨ c = bslash))
  match cs.drop body.length with
  | c :: r => if c = dquote then some (⟨body⟩, r) else none
  | [] => none

/-- Reads a JSON integer (optional minus then digits); fraction and
exponent forms are outside the modelled domain. -/
def pNum (cs : List Char) : Option (Int × List Char) :=
  let (neg, cs1) :=
    match cs with
    | '-' :: r => (true, r)
    | r => (false, r)
  let ds := cs1.takeWhile Char.isDigit
  if ds.isEmpty then none
  else
    let v : Int := digitsVal ds
    some (if neg then -v else v, cs1.drop ds.length)

mutual

/-- Models `json.loads` (recursive descent with fuel): null, booleans,
integers, escape-free strings, arrays, objects. -/
def pJson : Nat → List Char → Option (Json × List Char)
  | 0, _ => none
  | fuel + 1, cs =>
    match jsonWs cs with
    | [] => none
    | c :: r =>
      if c = 'n' then
        match r with
        | 'u' :: 'l' :: 'l' :: r2 => some (.null, r2)
        | _ => none
      else if c = 't' then
        match r with
        | 'r' :: 'u' :: 'e' :: r2 => some (.bool true, r2)
        | _ => none
      else if c = 'f' then
        match r with
        | 'a' :: 'l' :: 's' :: 'e' :: r2 => some (.bool false, r2)
        | _ => none
      else if c = dquote then
        (pString r).map (fun p => (.str p.1, p.2))
      else if c = '[' then
        match jsonWs r with
        | ']' :: r2 => some (.arr [], r2)
        | r2 => (pElems fuel r2).map (fun p => (.arr p.1, p.2))
      else if c = lbrace then
        match jsonWs r with
        | c2 :: r2 =>
          if c2 = rbrace then some (.obj [], r2)
          else (pMembers fuel (c2 :: r2)).map (fun p => (.obj p.1, p.2))
        | [] => none
      else
        (pNum (c :: r)).map (fun p => (.num p.1, p.2))

/-- One or more comma-separated JSON array elements, then `]`. -/
def pElems : Nat → List Char → Option (List Json × List Char)
  | 0, _ => none
  | fuel + 1, cs => do
    let (j, r) ← pJson fuel cs
    match jsonWs r with
    | ',' :: r2 => (pElems fuel r2).map (fun p => (j :: p.1, p.2))
    | ']' :: r2 => some ([j], r2)
    | _ => none

/-- One or more comma-separated JSON object members, then the closing
brace. -/
def pMembers : Nat → List Char → Option (List (String × Json) × List Char)
  | 0, _ => none
  | fuel + 1, cs =>
    match jsonWs cs with
    | c :: r =>
      if c = dquote then do
        let (k, r2) ← pString r
        match jsonWs r2 with
        | ':' :: r3 => do
          let (v, r4) ← pJson fuel r3
          match jsonWs r4 with
          | ',' :: r5 => (pMembers fuel r5).map (fun p => ((k, v) :: p.1, p.2))
          | c2 :: r5 => if c2 = rbrace then some ([(k, v)], r5) else none
          | [] => none
        | _ => none
      else none
    | [] => none

end

/-- Models `json.loads` on a whole document: parse one value and require only
whitespace after it. -/
def loads (s : String) : Option Json :=
  match pJson (s.toList.length + 1) s.toList with
  | some (j, r) => if jsonWs r = [] then some j else none
  | none => none

/-- Models `sys.stdin.read() or "\x7b\x7d"`: an empty (falsy) stdin is replaced
by the empty-object document before parsing. -/
def effectiveStdin (s : String) : String := if s = "" then "\x7b\x7d" else s

/-- Python `dict.get` on a parsed JSON object (first binding wins;
duplicate keys are outside the modelled domain). -/
def dictGet (kvs : List (String × Json)) (k : String) : Option Json :=
  (kvs.find? (fun p => p.1 = k)).map Prod.snd

/-- Models `payload.get("proposals", [])` followed by iteration: a missing key
yields the empty list; a non-list value cannot be iterated into record
dicts (`none`); a non-object payload has no `.get` (`none`). -/
def proposalsOf (j : Json) : Option (List Json) :=
  match j with
  | .obj kvs =>
    match dictGet kvs "proposals" with
    | none => some []
    | some (.arr xs) => some xs
    | some _ => none
  | _ => none

/-- One JSON record to a `Proposal`, as `main`'s row loop reads it:
`p.get(...)` per field, integers stringified where Python's `str` would,
`null` stringified to `"None"` for the text fields.  Records that are not
objects, or fields outside these shapes, are outside the modelled domain
(`none`). -/
def toProposal (j : Json) : Option Proposal :=
  match j with
  | .obj kvs => do
    let idv : Option Int ←
      match dictGet kvs "id" with
      | none => some none
      | some (.num n) => some (some n)
      | some .null => some none
      | some _ => none
    let stv : Option String ←
      match dictGet kvs "status" with
      | none => some none
      | some (.str s) => some (some s)
      | some _ => none
    let dat : DateInput ←
      match dictGet kvs "createdAt" with
      | none => some .pynone
      | some .null => some .pynone
      | some (.str s) => some (.str s)
      | some (.num n) => some (.str (toString n))
      | some _ => none
    let valv : Option String ←
      match dictGet kvs "value" with
      | none => some none
      | some .null => some none
      | some (.str s) => some (some s)
      | some (.num n) => some (some (toString n))
      | some _ => none
    let cliv : Option String ←
      match dictGet kvs "clientName" with
      | none => some none
      | some (.str s) => some (some s)
      | some .null => some (some "None")
      | some (.num n) => some (some (toString n))
      | some _ => none
    let titv : Option String ←
      match dictGet kvs "title" with
      | none => some none
      | some (.str s) => some (some s)
      | some .null => some (some "None")
      | some (.num n) => some (some (toString n))
      | some _ => none
    some ⟨idv, stv, dat, valv, cliv, titv⟩
  | _ => none

/-- All records of the proposal list to `Proposal`s, in order. -/
def toProposals : List Json → Option (List Proposal)
  | [] => some []
  | j :: js => do
    let p ← toProposal j
    let ps ← toProposals js
    some (p :: ps)

/-- The row pipeline of `main` on the raw standard input: substitute the
empty-object document for empty stdin, parse the JSON, read the proposal
list, derive one row per proposal, sort by date.  `none` models any
uncaught exception (exit code 1). -/
def generate (stdin : String) (today : PyDate) : Option (List Row) := do
  let j ← loads (effectiveStdin stdin)
  let pjs ← proposalsOf j
  let ps ← toProposals pjs
  let rows ← deriveRows ps today
  some (sortRows rows)


/-- Concrete proposal whose value string cleans to a non-numeric form. -/
def pAbc : Proposal :=
  { id := some 1, status := some "vendida", createdAt := .str "2024-01-02",
    value := some "abc", clientName := some "Acme", title := none }

/-- Concrete proposal with every field missing. -/
def emptyProposal : Proposal := ⟨none, none, .pynone, none, none, none⟩

/-- Concrete proposal with no `clientName` key. -/
def pNoClient : Proposal := ⟨some 0, some "pendente", .str "2024-01-01", none, none, none⟩

/-- Concrete proposal with id 5, used to instantiate the synthetic-field
lookups. -/
def pFive : Proposal :=
  { id := some 5, status := some "vendida", createdAt := .str "2024-02-03",
    value := none, clientName := some "Acme", title := none }

/-! ## General lemmas about the embedded operations -/

theorem PyDate.le_trans (a b c : PyDate) :
    PyDate.le a b → PyDate.le b c → PyDate.le a c := by
  unfold PyDate.le; omega

theorem PyDate.le_total (a b : PyDate) : PyDate.le a b ∨ PyDate.le b a := by
  unfold PyDate.le; omega

theorem PyDate.le_refl (a : PyDate) : PyDate.le a a := by
  unfold PyDate.le; omega

/-- Evaluation helper: `pyFloat` at a literal whose parse and value are
known. -/
theorem pyFloat_eq_of_parse {s : List Char} {f : FloatLit} {q : Rat}
    (h1 : pyFloatParse s = some f) (h2 : FloatLit.val f = q) :
    pyFloat s = some q := by
  simp [pyFloat, h1, h2]

theorem rowLeB_trans : ∀ a b c : Row, rowLeB a b → rowLeB b c → rowLeB a c := by
  intro a b c hab hbc
  simp only [rowLeB, PyDate.leB, decide_eq_true_eq] at *
  exact PyDate.le_trans _ _ _ hab hbc

theorem rowLeB_total : ∀ a b : Row, rowLeB a b || rowLeB b a := by
  intro a b
  simp only [rowLeB, PyDate.leB, Bool.or_eq_true, decide_eq_true_eq]
  exact PyDate.le_total _ _

/-- Stability of `mergeSort` over an enumerated list: the output is
ordered by the comparator, and ties keep ascending original positions. -/
theorem stable_pairwise {α : Type} (le : α → α → Bool)
    (htrans : ∀ a b c : α, le a b → le b c → le a c)
    (htot : ∀ a b : α, le a b || le b a) (l : List α) :
    List.Pairwise (fun a b : Nat × α => le a.2 b.2 ∧ (le b.2 a.2 → a.1 < b.1))
      (l.enum.mergeSort (List.enumLE le)) := by
  have hs : List.Pairwise (fun a b => List.enumLE le a b)
      (l.enum.mergeSort (List.enumLE le)) :=
    List.sorted_mergeSort (List.enumLE_trans htrans) (List.enumLE_total htot) _
  have hnd : List.Pairwise (fun a b : Nat × α => a.1 ≠ b.1)
      (l.enum.mergeSort (List.enumLE le)) := by
    have h1 : ((l.enum.mergeSort (List.enumLE le)).map Prod.fst).Nodup := by
      have hp : List.Perm ((l.enum.mergeSort (List.enumLE le)).map Prod.fst)
          (l.enum.map Prod.fst) :=
        (List.mergeSort_perm l.enum (List.enumLE le)).map Prod.fst
      exact hp.nodup_iff.mpr (List.nodup_enum_map_fst l)
    exact List.pairwise_map.mp h1
  refine (hs.and hnd).imp ?_
  rintro a b ⟨h1, h2⟩
  simp only [List.enumLE] at h1
  by_cases hab : le a.2 b.2
  · by_cases hba : le b.2 a.2
    · simp [hab, hba, decide_eq_true_eq] at h1
      exact ⟨hab, fun _ => lt_of_le_of_ne h1 h2⟩
    · exact ⟨hab, fun h => absurd h hba⟩
  · simp [hab] at h1

theorem strLeB_trans : ∀ a b c : String, strLeB a b → strLeB b c → strLeB a c := by
  intro a b c hab hbc
  simp only [strLeB, decide_eq_true_eq] at *
  exact le_trans hab hbc

theorem strLeB_total : ∀ a b : String, strLeB a b || strLeB b a := by
  intro a b
  simp only [strLeB, Bool.or_eq_true, decide_eq_true_eq]
  exact le_total a b

theorem clientNames_nodup (rs : List Row) : (clientNames rs).Nodup :=
  ((List.mergeSort_perm _ _).nodup_iff).mpr (List.nodup_dedup _)

theorem clientNames_pairwise_lt (rs : List Row) :
    List.Pairwise (fun a b : String => a < b) (clientNames rs) := by
  have hs : List.Pairwise (fun a b : String => strLeB a b) (clientNames rs) :=
    List.sorted_mergeSort strLeB_trans strLeB_total _
  refine (hs.and (clientNames_nodup rs)).imp ?_
  rintro a b ⟨h1, h2⟩
  exact lt_of_le_of_ne (by simpa [strLeB] using h1) h2

theorem clientNames_mem (rs : List Row) (n : String) :
    n ∈ clientNames rs ↔ n ∈ rs.map Row.clientName := by
  rw [clientNames, List.mem_mergeSort, List.mem_dedup]

theorem revLeB_trans (rs : List Row) :
    ∀ a b c : String, revLeB rs a b → revLeB rs b c → revLeB rs a c := by
  intro a b c hab hbc
  simp only [revLeB, decide_eq_true_eq] at *
  exact le_trans hbc hab

theorem revLeB_total (rs : List Row) :
    ∀ a b : String, revLeB rs a b || revLeB rs b a := by
  intro a b
  simp only [revLeB, Bool.or_eq_true, decide_eq_true_eq]
  exact le_total _ _

theorem sorted_clients_nodup (rs : List Row) : (sorted_clients rs).Nodup :=
  ((List.mergeSort_perm _ _).nodup_iff).mpr (clientNames_nodup rs)

/-- The top-10 pre-sort is ordered by descending summed sold revenue, with
revenue ties in ascending lexicographic name order. -/
theorem sorted_clients_pairwise (rs : List Row) :
    List.Pairwise (fun a b : String =>
      soldRevenueOf rs b ≤ soldRevenueOf rs a ∧
        (soldRevenueOf rs a = soldRevenueOf rs b → a < b)) (sorted_clients rs) := by
  have hmap : (((clientNames rs).enum).mergeSort (List.enumLE (revLeB rs))).map Prod.snd =
      sorted_clients rs := List.mergeSort_enum
  rw [← hmap, List.pairwise_map]
  have h1 := stable_pairwise (revLeB rs) (revLeB_trans rs) (revLeB_total rs) (clientNames rs)
  have hsn := clientNames_pairwise_lt rs
  have hget := List.pairwise_iff_get.mp hsn
  refine h1.imp_of_mem ?_
  intro a b ha hb hab
  have ha2 : (clientNames rs)[a.1]? = some a.2 :=
    List.mem_enum_iff_getElem?.mp (List.mem_mergeSort.mp ha)
  have hb2 : (clientNames rs)[b.1]? = some b.2 :=
    List.mem_enum_iff_getElem?.mp (List.mem_mergeSort.mp hb)
  obtain ⟨hal, hae⟩ := List.getElem?_eq_some.mp ha2
  obtain ⟨hbl, hbe⟩ := List.getElem?_eq_some.mp hb2
  obtain ⟨hle, htie⟩ := hab
  constructor
  · simpa [revLeB] using hle
  · intro heq
    have hidx : a.1 < b.1 := htie (by simp [revLeB, heq])
    have := hget ⟨a.1, hal⟩ ⟨b.1, hbl⟩ hidx
    simp only [List.get_eq_getElem] at this
    rwa [hae, hbe] at this

theorem deriveRow_isSome (p : Proposal) (t : PyDate) :
    (deriveRow p t).isSome = (parse_value p.value).isSome := by
  simp [deriveRow]

/-- Derivation of the whole row collection succeeds exactly when every
record's value parses. -/
theorem deriveRows_isSome (ps : List Proposal) (t : PyDate) :
    (deriveRows ps t).isSome ↔ ∀ p ∈ ps, (parse_value p.value).isSome := by
  induction ps with
  | nil => simp [deriveRows]
  | cons p ps ih =>
    simp only [deriveRows]
    cases hp : deriveRow p t with
    | none =>
      have hv : (parse_value p.value).isSome = false := by
        rw [← deriveRow_isSome p t, hp]; rfl
      simp [hv]
    | some r =>
      have hv : (parse_value p.value).isSome = true := by
        rw [← deriveRow_isSome p t, hp]; rfl
      cases hd : deriveRows ps t with
      | none => simp [hd] at ih; simp [ih, hv]
      | some rs =>
        refine ⟨fun _ a ha => ?_, fun _ => rfl⟩
        rcases List.mem_cons.mp ha with h1 | h2
        · subst h1; exact hv
        · exact ih.mp (by rw [hd]; rfl) a h2

theorem round2_zero : round2 0 = 0 := by
  have hf : Rat.floor 0 = 0 := rfl
  simp [round2, roundHalfEven, hf]

/-- The synthetic fields of a derived row are the modular lookups on the
proposal's id. -/
theorem deriveRow_synthetic : ∀ (p : Proposal) (t : PyDate) (r : Row),
    deriveRow p t = some r →
      (r.channel = channels.getD (pyMod (p.id.getD 0) 3) "" ∧
       r.seller = sellers.getD (pyMod (p.id.getD 0 + 1) 4) "" ∧
       r.category = cats.getD (pyMod (p.id.getD 0 + 2) 4) "" ∧
       r.uf = ufs.getD (pyMod (p.id.getD 0 + 3) 4) "") := by
  intro p t r h
  simp only [deriveRow, Option.map_eq_some'] at h
  obtain ⟨v, hv, hr⟩ := h
  subst hr
  exact ⟨rfl, rfl, rfl, rfl⟩

/-- Two proposals with the same id receive identical synthetic fields. -/
theorem deriveRow_same_id : ∀ (p q : Proposal) (tp tq : PyDate) (rp rq : Row),
    p.id = q.id → deriveRow p tp = some rp → deriveRow q tq = some rq →
      rp.channel = rq.channel ∧ rp.seller = rq.seller ∧
      rp.category = rq.category ∧ rp.uf = rq.uf := by
  intro p q tp tq rp rq hid hp hq
  have h1 := deriveRow_synthetic p tp rp hp
  have h2 := deriveRow_synthetic q tq rq hq
  rw [hid] at h1
  exact ⟨h1.1.trans h2.1.symm, h1.2.1.trans h2.2.1.symm,
    h1.2.2.1.trans h2.2.2.1.symm, h1.2.2.2.trans h2.2.2.2.symm⟩

theorem countif_cols (rs : List Row) (crit : String) (h : ("Status" : String) ≠ crit) :
    countif (colD rs) crit = rs.countP (fun r => r.status = crit) := by
  simp only [countif, colD, List.filter_cons]
  rw [if_neg (by simpa using h)]
  rw [List.filter_map, List.length_map, List.countP_eq_length_filter]
  rfl

theorem sumifs_cols (rs : List Row) (crit : String) (h : ("Status" : String) ≠ crit) :
    sumifs (colF rs) (colD rs) crit =
      ((rs.filter (fun r => r.status = crit)).map Row.value).sum := by
  simp only [sumifs, colF, colD, List.zip_cons_cons, List.filter_cons]
  rw [if_neg (by simpa using h)]
  rw [List.zip_map', List.filter_map, List.map_map]
  simp [Function.comp_def]

/-! ## Claim theorems -/

/-- C1 (counterexample): deriving the row for a proposal whose value
string is `"abc"` does not yield a 0.0-valued row — the whole derivation
aborts (`none`), because the row loop does not catch the parser's
`ValueError`. -/
theorem C1_counterexample : deriveRows [pAbc] ⟨2025, 1, 1⟩ = none := by rfl

/-- C1 (amended): row derivation completes exactly when every record's
value parses; a value string cleaning to a non-numeric form raises an
uncaught `ValueError` that aborts the whole derivation (`"abc"` shown
concretely), while 0.0 is substituted only for `None`/empty values and
every other derived field falls back to its documented default (shown on
the all-defaults proposal). -/
theorem C1_value_error_policy : (∀ (ps : List Proposal) (t : PyDate),
      (deriveRows ps t).isSome ↔ ∀ p ∈ ps, (parse_value p.value).isSome) ∧
    (∀ t : PyDate, deriveRows [pAbc] t = none) ∧
    (∀ t : PyDate, deriveRow emptyProposal t =
      some ⟨t, "", "Contrato #0", "pendente", "Pix", 0, "Não", "Ana", "Mensalidade", "PR"⟩) := by
  refine ⟨deriveRows_isSome, fun t => rfl, fun t => ?_⟩
  have h0 : deriveRow emptyProposal t =
      some ⟨t, "", "Contrato #0", "pendente", "Pix", round2 0, "Não", "Ana", "Mensalidade", "PR"⟩ := rfl
  rw [h0, round2_zero]

/-- C2 (counterexample): with an empty row collection the emitted
trend-table ranges are inverted — `max_row` is 1, so `a_rng` reads
`Dados!$A$2:$A$1`, and the `Clientes` TOTAL row's `SUM` range is
`B5:B4`. -/
theorem C2_counterexample :
    aRng [] = "Dados!$A$2:$A$1" ∧
    (trendRange []).inverted = true ∧
    (clientsTotalRange (clientNames [])).inverted = true := by
  refine ⟨rfl, rfl, ?_⟩
  have h : clientNames ([] : List Row) = [] := by simp [clientNames]
  rw [h]
  rfl

/-- C2 (amended): with an empty proposal list generation succeeds, every
COUNT/SUM-style and AVERAGE-style aggregate evaluates to 0, and the
per-client and top-10 sections have zero populated rows — but the
trend-table `SUMPRODUCT` ranges and the `Clientes` TOTAL `SUM` range are
inverted (end row above start row), not valid as the claim demands. -/
theorem C2_empty_generation : ∀ t : PyDate,
    generate "" t = some [] ∧
    kpiS6 [] = 0 ∧ kpiS7 [] = 0 ∧ kpiS8 [] = 0 ∧ kpiS9 [] = 0 ∧
    kpiS10 [] = 0 ∧ kpiS11 [] = 0 ∧
    clientNames [] = [] ∧ top10Names [] = [] ∧ (∀ i, top10Slot [] i = none) ∧
    (trendRange []).inverted = true ∧
    (clientsTotalRange (clientNames [])).inverted = true := by
  intro t
  have hcn : clientNames ([] : List Row) = [] := by simp [clientNames]
  have hsc : sorted_clients ([] : List Row) = [] := by simp [sorted_clients, hcn]
  have hgen : generate "" t = some [] := by
    have h : loads "\x7b\x7d" = some (Json.obj []) := rfl
    simp [generate, effectiveStdin, h, proposalsOf, dictGet, toProposals, deriveRows, sortRows]
  refine ⟨hgen, rfl, rfl, rfl, rfl, ?_, ?_, hcn, ?_, ?_, rfl, ?_⟩
  · have h7 : kpiS7 [] = 0 := rfl
    simp [kpiS10, iferrorDiv, h7]
  · have h7 : kpiS7 [] = 0 := rfl
    have h8 : kpiS8 [] = 0 := rfl
    have h9 : kpiS9 [] = 0 := rfl
    simp [kpiS11, iferrorDiv, h7, h8, h9]
  · simp [top10Names, hsc]
  · intro i
    simp [top10Slot, hsc]
  · rw [hcn]
    rfl

/-- C3 (counterexample): a row whose clientName is empty (missing key)
does contribute a roster entry — the rollup roster for that single row is
`[""]`, not `[]`. -/
theorem C3_counterexample :
    clientNames ((deriveRows [pNoClient] ⟨2025, 1, 1⟩).getD []) = [""] := by
  have h : (deriveRows [pNoClient] ⟨2025, 1, 1⟩).getD [] =
      [⟨⟨2024, 1, 1⟩, "", "Contrato #0", "pendente", "Pix", round2 0, "Não", "Ana", "Mensalidade", "PR"⟩] := rfl
  rw [h]
  simp [clientNames]

/-- C3 (amended): the per-client rollup contains exactly one row for each
distinct `clientName` value appearing in the row collection — the empty
string included when present — and the roster is strictly ascending
lexicographically. -/
theorem C3_roster : ∀ rs : List Row,
    List.Pairwise (fun a b : String => a < b) (clientNames rs) ∧
    (∀ n, n ∈ clientNames rs ↔ n ∈ rs.map Row.clientName) :=
  fun rs => ⟨clientNames_pairwise_lt rs, clientNames_mem rs⟩

/-- C4: the synthetic fields of every derived row are the fixed-table
lookups `channels[id mod 3]`, `sellers[(id+1) mod 4]`, `cats[(id+2) mod 4]`,
`ufs[(id+3) mod 4]` on the proposal's id, and two proposals with the same
id receive identical channel, seller, category and region regardless of
their other fields. -/
theorem C4_synthetic_fields :
    (∀ (p : Proposal) (t : PyDate) (r : Row), deriveRow p t = some r →
      (r.channel = channels.getD (pyMod (p.id.getD 0) 3) "" ∧
       r.seller = sellers.getD (pyMod (p.id.getD 0 + 1) 4) "" ∧
       r.category = cats.getD (pyMod (p.id.getD 0 + 2) 4) "" ∧
       r.uf = ufs.getD (pyMod (p.id.getD 0 + 3) 4) "")) ∧
    (∀ (p q : Proposal) (tp tq : PyDate) (rp rq : Row),
      p.id = q.id → deriveRow p tp = some rp → deriveRow q tq = some rq →
      rp.channel = rq.channel ∧ rp.seller = rq.seller ∧
      rp.category = rq.category ∧ rp.uf = rq.uf) :=
  ⟨deriveRow_synthetic, deriveRow_same_id⟩

/-- C4 (witness): the proposal with id 5 derives a row and its synthetic
fields are the table entries at indices 2, 2, 3, 0. -/
theorem C4_synthetic_fields_witness :
    deriveRow pFive ⟨2025, 1, 1⟩ =
      some ⟨⟨2024, 2, 3⟩, "Acme", "Contrato #5", "vendida", "Boleto", round2 0,
        "Sim", "João", "Setup", "SP"⟩ ∧
    channels.getD (pyMod 5 3) "" = "Boleto" ∧
    sellers.getD (pyMod (5 + 1) 4) "" = "João" ∧
    cats.getD (pyMod (5 + 2) 4) "" = "Setup" ∧
    ufs.getD (pyMod (5 + 3) 4) "" = "SP" := by
  refine ⟨rfl, ?_, ?_, ?_, ?_⟩
  · exact ((C4_synthetic_fields.1 pFive ⟨2025, 1, 1⟩ _ rfl).1).symm
  · exact ((C4_synthetic_fields.1 pFive ⟨2025, 1, 1⟩ _ rfl).2.1).symm
  · exact ((C4_synthetic_fields.1 pFive ⟨2025, 1, 1⟩ _ rfl).2.2.1).symm
  · exact ((C4_synthetic_fields.1 pFive ⟨2025, 1, 1⟩ _ rfl).2.2.2).symm

/-- C5: the top-10 ranking lists clients in descending order of summed
sold revenue with ties in ascending lexicographic name order (the pre-sort
is stable over the lexicographic roster); at most 10 names are populated,
names beyond the 10th place are omitted, and slots past the client count
are blank. -/
theorem C5_top10 : ∀ rs : List Row,
    List.Pairwise (fun a b : String =>
      soldRevenueOf rs b ≤ soldRevenueOf rs a ∧
        (soldRevenueOf rs a = soldRevenueOf rs b → a < b)) (sorted_clients rs) ∧
    List.Pairwise (fun a b : String =>
      soldRevenueOf rs b ≤ soldRevenueOf rs a ∧
        (soldRevenueOf rs a = soldRevenueOf rs b → a < b)) (top10Names rs) ∧
    top10Names rs = (sorted_clients rs).take 10 ∧
    (top10Names rs).length ≤ 10 ∧
    (∀ i (h10 : 10 ≤ i) (h : i < (sorted_clients rs).length),
        (sorted_clients rs).get ⟨i, h⟩ ∉ top10Names rs) ∧
    (∀ i, (sorted_clients rs).length ≤ i → top10Slot rs i = none) := by
  intro rs
  refine ⟨sorted_clients_pairwise rs,
    (sorted_clients_pairwise rs).sublist (List.take_sublist 10 _), rfl, ?_, ?_, ?_⟩
  · simp [top10Names, List.length_take]
  · intro i h10 h hmem
    obtain ⟨j, hget⟩ := List.mem_iff_get.mp hmem
    have hj10 : (j : Nat) < 10 := by
      have := j.isLt
      simp [top10Names, List.length_take] at this
      omega
    have hjlen : (j : Nat) < (sorted_clients rs).length := by
      have := j.isLt
      simp [top10Names, List.length_take] at this
      omega
    have hgt : (top10Names rs).get j = (sorted_clients rs).get ⟨j, hjlen⟩ := by
      simp [top10Names, List.getElem_take']
    rw [hgt] at hget
    have := (List.Nodup.get_inj_iff (sorted_clients_nodup rs)).mp hget
    have : (j : Nat) = i := congrArg Fin.val this
    omega
  · intro i hi
    simp [top10Slot, List.getElem?_eq_none hi]

/-- C6: the emitted KPI formulas satisfy the semantic contract — S6 sums
the values of the rows with status "vendida"; the S7/S8/S9 counters count
the rows with each status; the average ticket S10 is S6 over the sold
count, 0 when the count is 0; the conversion rate S11 is the sold count
over the total status count, 0 when that denominator is 0. -/
theorem C6_kpis : ∀ rs : List Row,
    kpiS6 rs = ((rs.filter (fun r => r.status = "vendida")).map Row.value).sum ∧
    kpiS7 rs = rs.countP (fun r => r.status = "vendida") ∧
    kpiS8 rs = rs.countP (fun r => r.status = "pendente") ∧
    kpiS9 rs = rs.countP (fun r => r.status = "cancelada") ∧
    (kpiS7 rs = 0 → kpiS10 rs = 0) ∧
    (kpiS7 rs ≠ 0 → kpiS10 rs = kpiS6 rs / (kpiS7 rs : Rat)) ∧
    (kpiS7 rs + kpiS8 rs + kpiS9 rs = 0 → kpiS11 rs = 0) ∧
    (kpiS7 rs + kpiS8 rs + kpiS9 rs ≠ 0 →
      kpiS11 rs = (kpiS7 rs : Rat) / ((kpiS7 rs : Rat) + (kpiS8 rs : Rat) + (kpiS9 rs : Rat))) := by
  intro rs
  refine ⟨sumifs_cols rs "vendida" (by decide), countif_cols rs "vendida" (by decide),
    countif_cols rs "pendente" (by decide), countif_cols rs "cancelada" (by decide),
    ?_, ?_, ?_, ?_⟩
  · intro h7
    simp [kpiS10, iferrorDiv, h7]
  · intro h7
    have : ((kpiS7 rs : Nat) : Rat) ≠ 0 := by
      simpa using h7
    simp [kpiS10, iferrorDiv, this]
  · intro hz
    have h7 : kpiS7 rs = 0 := by omega
    have h8 : kpiS8 rs = 0 := by omega
    have h9 : kpiS9 rs = 0 := by omega
    simp [kpiS11, iferrorDiv, h7, h8, h9]
  · intro hz
    have : ((kpiS7 rs : Rat) + (kpiS8 rs : Rat) + (kpiS9 rs : Rat)) ≠ 0 := by
      intro hc
      apply hz
      have h7 : (0 : Rat) ≤ (kpiS7 rs : Rat) := by positivity
      have h8 : (0 : Rat) ≤ (kpiS8 rs : Rat) := by positivity
      have h9 : (0 : Rat) ≤ (kpiS9 rs : Rat) := by positivity
      have e7 : (kpiS7 rs : Rat) = 0 := by linarith
      have e8 : (kpiS8 rs : Rat) = 0 := by linarith
      have e9 : (kpiS9 rs : Rat) = 0 := by linarith
      have := Nat.cast_eq_zero.mp e7
      have := Nat.cast_eq_zero.mp e8
      have := Nat.cast_eq_zero.mp e9
      omega
    simp [kpiS11, iferrorDiv, this]

/-- C7: the sorted row collection is ascending by date (every earlier row's
date is at most every later row's date), and the sort is stable — in the
enumerated sort, rows with equal dates keep strictly ascending original
positions. -/
theorem C7_rows_sorted_stable : ∀ rs : List Row,
    List.Pairwise (fun a b : Row => PyDate.le a.date b.date) (sortRows rs) ∧
    (rs.enum.mergeSort (List.enumLE rowLeB)).map Prod.snd = sortRows rs ∧
    List.Pairwise (fun a b : Nat × Row => a.2.date = b.2.date → a.1 < b.1)
      (rs.enum.mergeSort (List.enumLE rowLeB)) := by
  intro rs
  refine ⟨?_, List.mergeSort_enum, ?_⟩
  · exact (List.sorted_mergeSort rowLeB_trans rowLeB_total rs).imp
      (by intro a b h; simpa [rowLeB, PyDate.leB] using h)
  · refine (stable_pairwise rowLeB rowLeB_trans rowLeB_total rs).imp ?_
    rintro a b ⟨h1, h2⟩ hdates
    apply h2
    simp only [rowLeB, PyDate.leB, hdates, decide_eq_true_eq]
    exact PyDate.le_refl _

/-- C8: `parse_date` returns a native date unchanged, parses ISO-8601-like
strings with a trailing `Z` treated as the offset `+00:00` (the raw `Z`
form itself is unparseable, so the replacement is what makes it succeed),
and returns the current date on any parse failure, so it yields a date for
every input. -/
theorem C8_parse_date :
    (∀ (d t : PyDate), parse_date (.date d) t = d) ∧
    (∀ t, parse_date (.str "2024-03-01") t = ⟨2024, 3, 1⟩) ∧
    fromIso "2025-06-05T12:30:00Z".toList = none ∧
    (∀ t, parse_date (.str "2025-06-05T12:30:00Z") t = ⟨2025, 6, 5⟩) ∧
    (∀ t, parse_date (.str "not-a-date") t = t) ∧
    (∀ t, parse_date .pynone t = t) ∧
    (∀ (s : String) (t : PyDate),
      fromIso (replaceChar 'Z' "+00:00".toList s.toList) = none →
        parse_date (.str s) t = t) := by
  refine ⟨fun d t => rfl, fun t => rfl, by decide, fun t => rfl, fun t => rfl,
    fun t => rfl, ?_⟩
  intro s t h
  simp only [String.toList] at h
  simp [parse_date, DateInput.pyStr, h]

/-- C9: `parse_value` maps null and empty or whitespace-only input to 0.0,
and otherwise strips every `.`, turns `,` into `.`, and parses the cleaned
string as a number, so `parseValue("1.234,56") = 1234.56`. -/
theorem C9_parse_value :
    parse_value none = some 0 ∧
    parse_value (some "") = some 0 ∧
    parse_value (some "   ") = some 0 ∧
    parse_value (some "1.234,56") = some (1234.56 : Rat) ∧
    (∀ s : String, pyStrip s.toList ≠ [] →
      parse_value (some s) =
        pyFloat (replaceChar ',' ['.'] (replaceChar '.' [] (pyStrip s.toList)))) := by
  refine ⟨rfl, rfl, rfl, ?_, ?_⟩
  · show pyFloat (replaceChar ',' ['.'] (replaceChar '.' [] (pyStrip "1.234,56".toList)))
      = some (1234.56 : Rat)
    refine pyFloat_eq_of_parse (f := ⟨1, ['1','2','3','4'], ['5','6'], 1, []⟩) (by decide) ?_
    have h1 : digitsVal ['1','2','3','4'] = 1234 := by decide
    have h2 : digitsVal ['5','6'] = 56 := by decide
    have h3 : digitsVal [] = 0 := by decide
    simp [FloatLit.val, h1, h2, h3]
    norm_num
  · intro s h
    simp only [parse_value]
    rw [if_neg h]

/-- C10: empty standard input is not treated as malformed JSON — the raw
empty document would fail to parse, but the empty-object document is
substituted, the proposal list comes out empty, and generation proceeds. -/
theorem C10_empty_stdin : ∀ t : PyDate,
    loads "" = none ∧
    effectiveStdin "" = "\x7b\x7d" ∧
    loads (effectiveStdin "") = some (Json.obj []) ∧
    proposalsOf (Json.obj []) = some [] ∧
    generate "" t = some [] := by
  intro t
  refine ⟨rfl, rfl, rfl, rfl, ?_⟩
  have h : loads "\x7b\x7d" = some (Json.obj []) := rfl
  simp [generate, effectiveStdin, h, proposalsOf, dictGet, toProposals, deriveRows, sortRows]
